import Mathlib

/-!
Shallow embedding of the nearest-restroom lookup core of `src/server.mjs`
(HowFarFromPotty). JavaScript numbers are modelled as `JsNum` (a finite
rational or one of the non-finite values); nullable/optional JS values are
modelled with `Option`; network effects are modelled by passing an explicit
environment describing the outcome of each upstream fetch, and every
previously-effectful function returns its result together with the new cache
state and the number of network calls it made.
-/

namespace HowFarFromPotty

/-- Result of JavaScript `Number(...)` coercion: a finite rational, `NaN`,
`Infinity` or `-Infinity`. -/
inductive JsNum where
  | fin (q : ℚ)
  | nan
  | posInf
  | negInf
deriving DecidableEq

/-- `Number.isFinite` (src/server.mjs: `isFiniteNumber`). -/
def isFiniteNumber : JsNum → Bool
  | .fin _ => true
  | _ => false

/-- Axis-aligned bounding box (src/server.mjs `UK_BOUNDS` / `US_BOUNDS`). -/
structure Bounds where
  minLat : ℚ
  maxLat : ℚ
  minLon : ℚ
  maxLon : ℚ
deriving DecidableEq

def UK_BOUNDS : Bounds := ⟨49.8, 60.9, -8.7, 1.8⟩

def US_BOUNDS : Bounds := ⟨18.5, 71.6, -179.2, -66.0⟩

/-- src/server.mjs `isInUkBounds`. -/
def isInUkBounds (lat lon : ℚ) : Bool :=
  decide (UK_BOUNDS.minLat ≤ lat ∧ lat ≤ UK_BOUNDS.maxLat ∧
    UK_BOUNDS.minLon ≤ lon ∧ lon ≤ UK_BOUNDS.maxLon)

/-- src/server.mjs `isInUsBounds`. -/
def isInUsBounds (lat lon : ℚ) : Bool :=
  decide (US_BOUNDS.minLat ≤ lat ∧ lat ≤ US_BOUNDS.maxLat ∧
    US_BOUNDS.minLon ≤ lon ∧ lon ≤ US_BOUNDS.maxLon)

/-- Characters matched by the JavaScript regex class `\s` (the common ones:
space, tab, line feed, carriage return, vertical tab, form feed, NBSP). -/
def isJsSpace (c : Char) : Bool :=
  c == ' ' || c == '\t' || c == '\n' || c == '\r' || c == '\x0b' ||
    c == '\x0c' || c == '\xa0'

/-- One pass of `String.replace(/\s+/g, " ")`: each maximal run of whitespace
becomes a single space. The flag records whether the previous character
belonged to a whitespace run already emitted as `' '`. -/
def collapseWsAux : Bool → List Char → List Char
  | _, [] => []
  | prevSpace, c :: cs =>
    if isJsSpace c then
      if prevSpace then collapseWsAux true cs
      else ' ' :: collapseWsAux true cs
    else c :: collapseWsAux false cs

/-- `String.replace(/\s+/g, " ")` on a character list. -/
def collapseWs (l : List Char) : List Char := collapseWsAux false l

/-- JavaScript `String.prototype.trim()` on a character list: drop leading and
trailing whitespace. -/
def trimChars (l : List Char) : List Char :=
  ((l.dropWhile isJsSpace).reverse.dropWhile isJsSpace).reverse

/-- JavaScript `text.slice(0, e)` on a character list: a negative end index
counts from the end of the string, clamped at 0. -/
def jsSliceTo (l : List Char) (e : Int) : List Char :=
  l.take (if e < 0 then ((l.length : Int) + e).toNat else e.toNat)

/-- Core of src/server.mjs `clampText` after the falsy guard: collapse
whitespace, trim, return `null` when empty, truncate with a `"..."` marker
when longer than `maxLen`. -/
def clampChars (l : List Char) (maxLen : Nat) : Option (List Char) :=
  let text := trimChars (collapseWs l)
  if text.isEmpty then none
  else if maxLen < text.length then
    some (jsSliceTo text ((maxLen : Int) - 3) ++ ['.', '.', '.'])
  else some text

/-- src/server.mjs `clampText`. The input is an optional string (`none` for
`undefined`/`null`); the empty string is falsy, so it also yields `null`.
The JS default for `maxLen` is 280; callers here always pass it explicitly. -/
def clampText (value : Option String) (maxLen : Nat) : Option String :=
  match value with
  | none => none
  | some s =>
    if s.isEmpty then none
    else (clampChars s.toList maxLen).map List.asString

/-- JavaScript `a || b` specialised to optional strings, where `undefined`,
`null` and the empty string are falsy. -/
def jsOrStr (a b : Option String) : Option String :=
  match a with
  | some s => if s = "" then b else some s
  | none => b

/-- JavaScript `a || d` for an optional string against a string default. -/
def strOr (a : Option String) (d : String) : String :=
  match jsOrStr a (some d) with
  | some s => s
  | none => d

/-- Canonical normalized restroom record (the object shape produced by
`parseToilets` and `normalizeUsToilet` in src/server.mjs). Fields absent on
one provider's objects (`country`/`approved` on UK records, for instance) are
modelled as `none`, matching JavaScript `undefined`. Amenity flags are the
tri-state `Option Bool`: `none` models `null`/`undefined` ("unknown"). -/
structure Toilet where
  id : String
  name : String
  lat : ℚ
  lon : ℚ
  areaName : String
  accessible : Option Bool
  babyChange : Option Bool
  noPayment : Option Bool
  radar : Option Bool
  allGender : Option Bool
  notes : Option String
  openingTimes : Option String
  updatedAt : Option String
  country : Option String
  approved : Option Bool
deriving DecidableEq

/-- Raw row of the UK bulk dataset, with exactly the fields src/server.mjs
`parseToilets` reads. `coordinates` is `row?.location?.coordinates` after
`Number(...)` on its entries (`none` when missing or not an array); the
amenity fields are the dataset's JSON booleans, `none` for `null`/missing. -/
structure UkRow where
  id : String
  active : Option Bool
  coordinates : Option (List JsNum)
  name : Option String
  areaName : Option String
  accessible : Option Bool
  baby_change : Option Bool
  no_payment : Option Bool
  radar : Option Bool
  all_gender : Option Bool
  notes : Option String
  opening_times : Option String
  updated_at : Option String
deriving DecidableEq

/-- Body of the `.map` in src/server.mjs `parseToilets`: `null` for a row
whose coordinate pair is missing, too short, or not a pair of finite numbers;
otherwise the normalized record. The dataset stores `[lon, lat]`. -/
def ukRecordOfRow (row : UkRow) : Option Toilet :=
  match row.coordinates with
  | none => none
  | some coords =>
    if coords.length < 2 then none
    else
      match coords[0]?, coords[1]? with
      | some (JsNum.fin lon), some (JsNum.fin lat) =>
        some
          { id := row.id
            name := strOr row.name "Public toilet"
            lat := lat
            lon := lon
            areaName := strOr row.areaName "Unknown area"
            accessible := row.accessible
            babyChange := row.baby_change
            noPayment := row.no_payment
            radar := row.radar
            allGender := row.all_gender
            notes := row.notes
            openingTimes := row.opening_times
            updatedAt := row.updated_at
            country := none
            approved := none }
      | _, _ => none

/-- src/server.mjs `parseToilets`: drop falsy rows and rows with
`active === false`, normalize the rest, drop the ones that normalized to
`null`. A `none` entry models a `null`/falsy element of the JSON array. -/
def parseToilets (rows : List (Option UkRow)) : List Toilet :=
  (rows.filter fun row =>
      match row with
      | none => false
      | some r => r.active != some false).filterMap
    (fun row => row.bind ukRecordOfRow)

/-- Raw row of the Refuge Restrooms API, with exactly the fields
src/server.mjs `normalizeUsToilet` reads. `latitude`/`longitude` are the
values after `Number(...)`; `id` is the value after `String(...)`. -/
structure UsRow where
  id : String
  latitude : JsNum
  longitude : JsNum
  name : Option String
  directions : Option String
  comment : Option String
  city : Option String
  state : Option String
  accessible : Option Bool
  changing_table : Option Bool
  unisex : Option Bool
  updated_at : Option String
  created_at : Option String
  country : Option String
  approved : Option Bool
deriving DecidableEq

/-- The `notes` computation of `normalizeUsToilet`:
`[clampText(directions), clampText(comment)].filter(Boolean).join(" | ")`
followed by `notes || null`. The cases spell out the join: both parts absent
gives the empty join, which is falsy and becomes `null`. -/
def usNotesOf (row : UsRow) : Option String :=
  match clampText row.directions 280, clampText row.comment 280 with
  | none, none => none
  | some d, none => some d
  | none, some c => some c
  | some d, some c => some (d ++ " | " ++ c)

/-- The `areaName` computation of `normalizeUsToilet`:
`[city, state].filter(Boolean)` joined with `", "`, with the
"Unknown area" fallback when both are falsy. -/
def usAreaNameOf (row : UsRow) : String :=
  match jsOrStr row.city none, jsOrStr row.state none with
  | none, none => "Unknown area"
  | some c, none => c
  | none, some s => s
  | some c, some s => c ++ ", " ++ s

/-- src/server.mjs `normalizeUsToilet`: `null` when the coordinates are not
finite numbers, otherwise the normalized record. Note the derived amenity
flags use strict equality with `true`, so `null`/missing source booleans
produce `false`, while `noPayment`/`radar` are hard-coded `null`. -/
def normalizeUsToilet (row : UsRow) : Option Toilet :=
  match row.latitude, row.longitude with
  | JsNum.fin lat, JsNum.fin lon =>
    some
      { id := row.id
        name := strOr (clampText row.name 120) "Public restroom"
        lat := lat
        lon := lon
        areaName := usAreaNameOf row
        accessible := some (row.accessible == some true)
        babyChange := some (row.changing_table == some true)
        noPayment := none
        radar := none
        allGender := some (row.unisex == some true)
        notes := usNotesOf row
        openingTimes := none
        updatedAt := jsOrStr row.updated_at (jsOrStr row.created_at none)
        country := jsOrStr row.country none
        approved := some (row.approved == some true) }
  | _, _ => none

/-- src/server.mjs `CACHE_TTL_MS = 6 * 60 * 60 * 1000`. -/
def CACHE_TTL_MS : Int := 6 * 60 * 60 * 1000

/-- src/server.mjs `ukCache`: the module-level mutable cache cell. -/
structure UkCache where
  fetchedAt : Int
  sourceUrl : String
  toilets : List Toilet
deriving DecidableEq

/-- Outcome of one `fetch`: a successful response carrying a decoded value,
or a response with a non-ok HTTP status. -/
inductive FetchOutcome (α : Type) where
  | ok (value : α)
  | fail (status : Nat)
deriving DecidableEq

/-- Decoded body of the UK dataset export: a JSON array of (possibly null)
rows, or some other JSON value. -/
inductive BulkPayload where
  | arr (rows : List (Option UkRow))
  | notArray
deriving DecidableEq

/-- Environment for one `getDataset` refresh. `page` is the dataset-page
fetch; on success it carries the list of export links matched in the page
HTML by `DATASET_LINK_REGEX` (`match` returns no links as the empty list).
`data` is the fetch of the first export link. -/
structure BulkEnv where
  page : FetchOutcome (List String)
  data : FetchOutcome BulkPayload
deriving DecidableEq

/-- Result of `getDataset`: thrown error or returned cache object. -/
inductive DsResult where
  | ok (cache : UkCache)
  | error (message : String)
deriving DecidableEq

/-- Observable effect of one `getDataset` call: its result, the cache cell
after the call, and how many network fetches it performed. -/
structure DatasetCall where
  result : DsResult
  cacheAfter : UkCache
  networkCalls : Nat
deriving DecidableEq

/-- src/server.mjs `getDataset`, with `Date.now()` passed in as `now` and the
network passed in as `env`. Serves the cache when it is younger than
`CACHE_TTL_MS` and non-empty; otherwise refreshes, aborting (and leaving the
cache untouched) at the first failing step. -/
def getDataset (now : Int) (cache : UkCache) (env : BulkEnv) : DatasetCall :=
  if now - cache.fetchedAt < CACHE_TTL_MS ∧ 0 < cache.toilets.length then
    ⟨.ok cache, cache, 0⟩
  else
    match env.page with
    | .fail status =>
      ⟨.error ("Dataset page request failed (" ++ toString status ++ ")"), cache, 1⟩
    | .ok exportLinks =>
      match exportLinks with
      | [] => ⟨.error "Unable to find a JSON export URL in the dataset page.", cache, 1⟩
      | firstLink :: _ =>
        let sourceUrl := firstLink.replace "&amp;" "&"
        match env.data with
        | .fail status =>
          ⟨.error ("Dataset JSON request failed (" ++ toString status ++ ")"), cache, 2⟩
        | .ok BulkPayload.notArray =>
          ⟨.error "Dataset JSON format was not an array.", cache, 2⟩
        | .ok (BulkPayload.arr rows) =>
          let newCache : UkCache := ⟨now, sourceUrl, parseToilets rows⟩
          ⟨.ok newCache, newCache, 2⟩

/-- A normalized record annotated with its distance to the query point, as
built by the `.map` before the sort in both lookup paths (the JS spread
`{ ...toilet, distanceKm }`). -/
structure Ranked where
  toilet : Toilet
  distanceKm : ℚ
deriving DecidableEq

/-- The shared tail of both lookup paths: annotate each candidate with its
distance, sort ascending on `distanceKm` (JavaScript `Array.prototype.sort`
with comparator `a.distanceKm - b.distanceKm` is a stable sort, modelled by
`List.mergeSort`), and `slice(0, limit)`. -/
def rankAndTake (dist : Toilet → ℚ) (limit : Nat) (pool : List Toilet) : List Ranked :=
  ((pool.map fun t => Ranked.mk t (dist t)).mergeSort
      fun a b => decide (a.distanceKm ≤ b.distanceKm)).take limit

/-- The UK branch of the `/api/nearest` handler after `getDataset` returned:
rank the whole cached dataset against the query point and truncate. `dist`
abstracts the floating-point `haversineKm`. -/
def ukNearest (dist : ℚ → ℚ → ℚ → ℚ → ℚ) (lat lon : ℚ) (limit : Nat)
    (toilets : List Toilet) : List Ranked :=
  rankAndTake (fun t => dist lat lon t.lat t.lon) limit toilets

/-- Decoded body of one Refuge Restrooms page: a JSON array of (possibly
null) rows, or some other JSON value. -/
inductive UsPayload where
  | arr (rows : List (Option UsRow))
  | notArray
deriving DecidableEq

/-- Environment for `getUsNearest`: the outcome of fetching each page index
of `restrooms/by_location`. -/
structure UsEnv where
  pages : Nat → FetchOutcome UsPayload

/-- Body of the inner `for (const row of rows)` loop of `getUsNearest`: skip
rows not `approved === true`, normalize, de-duplicate by id, append. -/
def addUsRows (seen : List String) (cands : List Toilet) :
    List (Option UsRow) → List String × List Toilet
  | [] => (seen, cands)
  | none :: rest => addUsRows seen cands rest
  | some row :: rest =>
    if row.approved != some true then addUsRows seen cands rest
    else
      match normalizeUsToilet row with
      | none => addUsRows seen cands rest
      | some toilet =>
        if toilet.id ∈ seen then addUsRows seen cands rest
        else addUsRows (seen ++ [toilet.id]) (cands ++ [toilet]) rest

/-- The page loop of `getUsNearest` (`maxPages = 4`): fetch pages in order,
fail the whole lookup on a non-ok status, stop on a non-array or empty page,
stop early once the accumulated US-country count reaches `limit`. `fuel` is
the number of page iterations left; the loop starts with fuel 4 at page 0.
Returns the accumulated candidates (or the thrown error) and the number of
network calls made. -/
def usLoopIter (env : UsEnv) (limit : Nat) :
    Nat → Nat → List String → List Toilet → Nat →
      (Except String (List Toilet)) × Nat
  | 0, _, _, cands, calls => (.ok cands, calls)
  | fuel + 1, page, seen, cands, calls =>
    match env.pages page with
    | .fail status =>
      (.error ("US API request failed (" ++ toString status ++ ")"), calls + 1)
    | .ok UsPayload.notArray => (.ok cands, calls + 1)
    | .ok (UsPayload.arr []) => (.ok cands, calls + 1)
    | .ok (UsPayload.arr (row :: rest)) =>
      let acc := addUsRows seen cands (row :: rest)
      if limit ≤ (acc.2.filter fun t => t.country == some "US").length then
        (.ok acc.2, calls + 1)
      else usLoopIter env limit fuel (page + 1) acc.1 acc.2 (calls + 1)

/-- The country-preference filter of `getUsNearest`: restrict the pool to
US-country candidates when any exist, otherwise keep every candidate. -/
def usPool (cands : List Toilet) : List Toilet :=
  if cands.any fun t => t.country == some "US" then
    cands.filter fun t => t.country == some "US"
  else cands

/-- src/server.mjs `getUsNearest`: paginated accumulation, country-preference
pool, then annotate with distance, sort and truncate. Also returns the
number of network calls made. -/
def getUsNearest (dist : ℚ → ℚ → ℚ → ℚ → ℚ) (lat lon : ℚ) (limit : Nat)
    (env : UsEnv) : (Except String (List Ranked)) × Nat :=
  match usLoopIter env limit 4 0 [] [] 0 with
  | (.error e, calls) => (.error e, calls)
  | (.ok cands, calls) =>
    (.ok (rankAndTake (fun t => dist lat lon t.lat t.lon) limit (usPool cands)), calls)

/-- The `limit` clamp of the `/api/nearest` handler:
`Number.isFinite(requestedLimit) ? Math.min(Math.max(Math.floor(requestedLimit), 1), 20) : 5`.
`requestedLimit` is `Number(url.searchParams.get("limit") || 5)`. -/
def effectiveLimit (requestedLimit : JsNum) : Nat :=
  match requestedLimit with
  | .fin q => (min (max (Int.floor q) 1) 20).toNat
  | _ => 5

/-- Response of the `/api/nearest` route, at the level of detail the claims
need: a 400 rejection with its stable machine-readable `error` code, a
successful UK or US payload, or the 500 page produced by the outer catch
when an upstream fetch failed. -/
inductive NearestResponse where
  | clientError (status : Nat) (code : String)
  | ukResult (toilets : List Ranked) (sourceUrl : String) (fetchedAt : Int)
  | usResult (toilets : List Ranked)
  | serverError (message : String)
deriving DecidableEq

/-- Observable effect of one `/api/nearest` request: the response, the cache
cell after the request, and the number of network calls performed. -/
structure NearestCall where
  response : NearestResponse
  cacheAfter : UkCache
  networkCalls : Nat
deriving DecidableEq

/-- The `/api/nearest` branch of the request handler in src/server.mjs
`createServer`: clamp the limit, validate the coordinates, classify the
region (UK checked first), dispatch to the matching provider path. -/
def handleNearest (dist : ℚ → ℚ → ℚ → ℚ → ℚ) (lat lon requestedLimit : JsNum)
    (now : Int) (cache : UkCache) (env : BulkEnv) (usEnv : UsEnv) : NearestCall :=
  let limit := effectiveLimit requestedLimit
  match lat, lon with
  | JsNum.fin latQ, JsNum.fin lonQ =>
    if isInUkBounds latQ lonQ then
      let call := getDataset now cache env
      match call.result with
      | .error e => ⟨.serverError e, call.cacheAfter, call.networkCalls⟩
      | .ok ds =>
        ⟨.ukResult (ukNearest dist latQ lonQ limit ds.toilets) ds.sourceUrl ds.fetchedAt,
          call.cacheAfter, call.networkCalls⟩
    else if isInUsBounds latQ lonQ then
      match getUsNearest dist latQ lonQ limit usEnv with
      | (.error e, calls) => ⟨.serverError e, cache, calls⟩
      | (.ok nearest, calls) => ⟨.usResult nearest, cache, calls⟩
    else ⟨.clientError 400 "outside_supported_regions", cache, 0⟩
  | _, _ => ⟨.clientError 400 "invalid_coordinates", cache, 0⟩

/-- Degrees to radians (the `toRad` closure of `haversineKm`). -/
noncomputable def toRad (degrees : ℝ) : ℝ := degrees * Real.pi / 180

/-- JavaScript `Math.atan2(y, x)`, over the reals: the argument of the
complex number `x + y i`. -/
noncomputable def atan2 (y x : ℝ) : ℝ := Complex.arg ⟨x, y⟩

/-- The haversine intermediate `a` of src/server.mjs `haversineKm`. -/
noncomputable def havA (lat1 lon1 lat2 lon2 : ℝ) : ℝ :=
  Real.sin (toRad (lat2 - lat1) / 2) * Real.sin (toRad (lat2 - lat1) / 2) +
    Real.cos (toRad lat1) * Real.cos (toRad lat2) *
      (Real.sin (toRad (lon2 - lon1) / 2) * Real.sin (toRad (lon2 - lon1) / 2))

/-- src/server.mjs `haversineKm`, over real-number semantics:
`earthRadiusKm * (2 * atan2(sqrt a, sqrt (1 - a)))` with Earth radius
6371 km. -/
noncomputable def haversineKm (lat1 lon1 lat2 lon2 : ℝ) : ℝ :=
  6371 * (2 * atan2 (Real.sqrt (havA lat1 lon1 lat2 lon2))
    (Real.sqrt (1 - havA lat1 lon1 lat2 lon2)))

/-! Concrete sample data used by witnesses and counterexamples. -/

/-- Sample normalized record at a fixed UK location. -/
def sampleToilet : Toilet :=
  { id := "t1", name := "Public toilet", lat := 51, lon := -1,
    areaName := "Unknown area", accessible := none, babyChange := none,
    noPayment := none, radar := none, allGender := none, notes := none,
    openingTimes := none, updatedAt := none, country := none, approved := none }

/-- Freshly-populated sample cache (fetched at time 0). -/
def sampleCache : UkCache := ⟨0, "https://example.test/export.json", [sampleToilet]⟩

/-- Sample refresh environment whose dataset-page fetch fails with 503. -/
def failingPageEnv : BulkEnv := ⟨.fail 503, .ok (BulkPayload.arr [])⟩

/-- Sample refresh environment where every fetch succeeds and the dataset is
the empty array. -/
def emptyOkEnv : BulkEnv :=
  ⟨.ok ["https://example.test/exports/toilets-1.json?download=1"],
    .ok (BulkPayload.arr [])⟩

/-- Sample candidate from the proximity provider located outside the primary
country. -/
def torontoToilet : Toilet :=
  { sampleToilet with id := "ca1", lat := 43, lon := -79, country := some "CA" }

/-- Sample candidate from the proximity provider inside the primary country. -/
def bostonToilet : Toilet :=
  { sampleToilet with id := "us1", lat := 42, lon := -71, country := some "US" }

/-- Proximity row whose source amenity booleans are all `null`/absent. -/
def usRowNullAmenities : UsRow :=
  { id := "1", latitude := .fin 40, longitude := .fin (-74), name := none,
    directions := none, comment := none, city := none, state := none,
    accessible := none, changing_table := none, unisex := none,
    updated_at := none, created_at := none, country := some "US",
    approved := some true }

/-- The record `normalizeUsToilet` produces for `usRowNullAmenities`. -/
def usToiletNullAmenities : Toilet :=
  { id := "1", name := "Public restroom", lat := 40, lon := -74,
    areaName := "Unknown area", accessible := some false,
    babyChange := some false, noPayment := none, radar := none,
    allGender := some false, notes := none, openingTimes := none,
    updatedAt := none, country := some "US", approved := some true }

/-- A 300-character note. -/
def longNote : String := String.mk (List.replicate 300 'a')

/-- Bulk-dataset row carrying `longNote` as its `notes` field. -/
def ukRowLongNote : UkRow :=
  { id := "u1", active := none, coordinates := some [.fin 0, .fin 51],
    name := some "X", areaName := none, accessible := none, baby_change := none,
    no_payment := none, radar := none, all_gender := none,
    notes := some longNote, opening_times := none, updated_at := none }

/-- Proximity row whose `directions` and `comment` are both 300 characters. -/
def usRowLongParts : UsRow :=
  { usRowNullAmenities with
      directions := some (String.mk (List.replicate 300 'b')),
      comment := some (String.mk (List.replicate 300 'c')) }

/-- Bulk-dataset row whose latitude coordinate is `NaN`. -/
def ukRowNanCoord : UkRow :=
  { ukRowLongNote with id := "u2", coordinates := some [.fin 0, .nan] }

/-- Proximity row whose latitude is `NaN`. -/
def usRowNanCoord : UsRow := { usRowNullAmenities with latitude := .nan }

/-- Distance function used when a witness needs a concrete computable stand-in
for the floating-point haversine: squared Euclidean distance on the plane. -/
def sqDist (lat1 lon1 lat2 lon2 : ℚ) : ℚ :=
  (lat2 - lat1) * (lat2 - lat1) + (lon2 - lon1) * (lon2 - lon1)

/-- Proximity environment whose every page request fails (never reached by
the input-error witnesses). -/
def failingUsEnv : UsEnv := ⟨fun _ => .fail 500⟩

/-- The condition under which the coordinate guards of `parseToilets` reject
a bulk row: the coordinate pair is missing (or not an array), shorter than
two entries, or one of its first two entries is not a finite number. -/
def ukCoordsInvalid (row : UkRow) : Bool :=
  match row.coordinates with
  | none => true
  | some coords =>
    match coords[0]?, coords[1]? with
    | some lonN, some latN => !(isFiniteNumber latN && isFiniteNumber lonN)
    | _, _ => true

/-- No two adjacent whitespace characters (the shape of a string whose
whitespace runs have been collapsed). -/
def noTwoSpaces (a b : Char) : Prop :=
  ¬(isJsSpace a = true ∧ isJsSpace b = true)

/-- The record `ukRecordOfRow` produces for `ukRowLongNote`. -/
def ukToiletLongNote : Toilet :=
  { id := "u1", name := "X", lat := 51, lon := 0, areaName := "Unknown area",
    accessible := none, babyChange := none, noPayment := none, radar := none,
    allGender := none, notes := some longNote, openingTimes := none,
    updatedAt := none, country := none, approved := none }

/-! Helper lemmas about the stable sort shared by both lookup paths. -/

/-- Elements all related pairwise by `le` whenever they satisfy `p` stay in
their original relative order through `mergeSort`: filtering the sorted list
by `p` gives back the filtered input. -/
theorem mergeSort_filter_stable {α : Type} (le : α → α → Bool)
    (htrans : ∀ a b c, le a b = true → le b c = true → le a c = true)
    (htot : ∀ a b, (le a b || le b a) = true)
    (p : α → Bool) (hp : ∀ a b, p a = true → p b = true → le a b = true)
    (l : List α) :
    (l.mergeSort le).filter p = l.filter p := by
  have hpair : (l.filter p).Pairwise (fun a b => le a b = true) := by
    apply List.pairwise_of_forall_mem_list
    intro a ha b hb
    exact hp a b (List.mem_filter.mp ha).2 (List.mem_filter.mp hb).2
  have hsub : (l.filter p).Sublist (l.mergeSort le) :=
    List.sublist_mergeSort htrans htot hpair (List.filter_sublist l)
  have hsub2 : (l.filter p).Sublist ((l.mergeSort le).filter p) := by
    have h := hsub.filter p
    simpa [List.filter_filter] using h
  have hperm : ((l.mergeSort le).filter p).Perm (l.filter p) :=
    (List.mergeSort_perm l le).filter p
  exact (hsub2.eq_of_length hperm.length_eq.symm).symm

/-- Filtering a `take`-prefix yields a `take`-prefix of the filtered list. -/
theorem filter_take_initial {α : Type} (p : α → Bool) (l : List α) (n : Nat) :
    (l.take n).filter p =
      (l.filter p).take ((l.take n).filter p).length := by
  have h : l.filter p = (l.take n).filter p ++ (l.drop n).filter p := by
    rw [← List.filter_append, List.take_append_drop]
  rw [h, List.take_left]

/-- Claim C1: a bulk-path (UK) lookup with effective limit `limit` returns at
most `limit` records, sorted by non-decreasing `distanceKm` from the query
point, and records with equal `distanceKm` keep the cached dataset's original
relative order: for each distance value, the returned records with that
distance are an initial segment of the annotated dataset filtered to that
distance. -/
theorem ukNearest_sorted_truncated_stable (dist : ℚ → ℚ → ℚ → ℚ → ℚ)
    (lat lon : ℚ) (limit : Nat) (toilets : List Toilet) :
    (ukNearest dist lat lon limit toilets).length ≤ limit ∧
    List.Pairwise (fun a b : Ranked => a.distanceKm ≤ b.distanceKm)
      (ukNearest dist lat lon limit toilets) ∧
    ∀ v : ℚ,
      ((ukNearest dist lat lon limit toilets).filter fun r => r.distanceKm == v) =
        (((toilets.map fun t => Ranked.mk t (dist lat lon t.lat t.lon)).filter
            fun r => r.distanceKm == v).take
          ((ukNearest dist lat lon limit toilets).filter
            fun r => r.distanceKm == v).length) := by
  have htrans : ∀ a b c : Ranked,
      decide (a.distanceKm ≤ b.distanceKm) = true →
      decide (b.distanceKm ≤ c.distanceKm) = true →
      decide (a.distanceKm ≤ c.distanceKm) = true := by
    intro a b c hab hbc
    simp only [decide_eq_true_eq] at hab hbc ⊢
    exact le_trans hab hbc
  have htot : ∀ a b : Ranked,
      (decide (a.distanceKm ≤ b.distanceKm) ||
        decide (b.distanceKm ≤ a.distanceKm)) = true := by
    intro a b
    rcases le_total a.distanceKm b.distanceKm with h | h <;> simp [h]
  refine ⟨?_, ?_, ?_⟩
  · simp [ukNearest, rankAndTake, List.length_take]
  · have hs := List.sorted_mergeSort htrans htot
      (toilets.map fun t => Ranked.mk t (dist lat lon t.lat t.lon))
    have hsub : (ukNearest dist lat lon limit toilets).Sublist
        (((toilets.map fun t => Ranked.mk t (dist lat lon t.lat t.lon)).mergeSort
            fun a b => decide (a.distanceKm ≤ b.distanceKm))) :=
      List.take_sublist _ _
    exact (List.Pairwise.sublist hsub hs).imp fun h => of_decide_eq_true h
  · intro v
    simp only [ukNearest, rankAndTake]
    have hp : ∀ a b : Ranked, (a.distanceKm == v) = true →
        (b.distanceKm == v) = true →
        decide (a.distanceKm ≤ b.distanceKm) = true := by
      intro a b ha hb
      simp only [beq_iff_eq] at ha hb
      simp [ha, hb]
    have hstable := mergeSort_filter_stable _ htrans htot
      (fun r : Ranked => r.distanceKm == v) hp
      (toilets.map fun t => Ranked.mk t (dist lat lon t.lat t.lon))
    have e1 := filter_take_initial (fun r : Ranked => r.distanceKm == v)
      ((toilets.map fun t => Ranked.mk t (dist lat lon t.lat t.lon)).mergeSort
        fun a b => decide (a.distanceKm ≤ b.distanceKm)) limit
    rw [hstable] at e1
    exact e1

/-- Claim C2: when the cache is younger than six hours and non-empty,
`getDataset` returns the cache object unchanged (same `fetchedAt`), leaves
the cache cell as it was, and performs no network call. -/
theorem getDataset_fresh_cache_hit (now : Int) (cache : UkCache) (env : BulkEnv)
    (hage : now - cache.fetchedAt < CACHE_TTL_MS)
    (hne : 0 < cache.toilets.length) :
    getDataset now cache env = ⟨.ok cache, cache, 0⟩ := by
  unfold getDataset
  rw [if_pos ⟨hage, hne⟩]

/-- Witness for claim C2 at a concrete fresh cache. -/
theorem getDataset_fresh_cache_hit_witness :
    getDataset 1000 sampleCache failingPageEnv = ⟨.ok sampleCache, sampleCache, 0⟩ :=
  getDataset_fresh_cache_hit 1000 sampleCache failingPageEnv (by decide) (by decide)

/-- Claim C3: when the cache is not fresh (so a refresh is attempted) and the
refresh fails at any step (page fetch non-ok, no export link matched, data
fetch non-ok, or payload not an array), `getDataset` propagates an error and
the cache cell is left exactly as it was. -/
theorem getDataset_failed_refresh_atomic (now : Int) (cache : UkCache)
    (env : BulkEnv)
    (hstale : ¬(now - cache.fetchedAt < CACHE_TTL_MS ∧ 0 < cache.toilets.length))
    (hfail : (∃ s, env.page = .fail s) ∨ env.page = .ok [] ∨
      (∃ s, env.data = .fail s) ∨ env.data = .ok BulkPayload.notArray) :
    (∃ msg, (getDataset now cache env).result = .error msg) ∧
      (getDataset now cache env).cacheAfter = cache := by
  obtain ⟨page, data⟩ := env
  unfold getDataset
  rw [if_neg hstale]
  cases page with
  | fail s => exact ⟨⟨_, rfl⟩, rfl⟩
  | ok links =>
    cases links with
    | nil => exact ⟨⟨_, rfl⟩, rfl⟩
    | cons a rest =>
      cases data with
      | fail s => exact ⟨⟨_, rfl⟩, rfl⟩
      | ok payload =>
        cases payload with
        | notArray => exact ⟨⟨_, rfl⟩, rfl⟩
        | arr rows =>
          exfalso
          rcases hfail with ⟨s, hp⟩ | hp | ⟨s, hd⟩ | hd <;> simp_all

/-- Witness for claim C3: a six-hour-old populated cache plus a failing page
fetch yields an error and an unchanged cache. -/
theorem getDataset_failed_refresh_atomic_witness :
    (∃ msg, (getDataset 22000000 sampleCache failingPageEnv).result = .error msg) ∧
      (getDataset 22000000 sampleCache failingPageEnv).cacheAfter = sampleCache :=
  getDataset_failed_refresh_atomic 22000000 sampleCache failingPageEnv
    (by decide) (Or.inl ⟨503, rfl⟩)

/-- Claim C10: `getDataset` treats the cache as fresh only when it is
non-empty as well as young: with an empty cached record list, every call
performs at least one network fetch, whatever the cache age. -/
theorem getDataset_empty_cache_refetches (now : Int) (cache : UkCache)
    (env : BulkEnv) (hempty : cache.toilets = []) :
    1 ≤ (getDataset now cache env).networkCalls := by
  obtain ⟨page, data⟩ := env
  unfold getDataset
  rw [if_neg (by simp [hempty])]
  cases page with
  | fail s => simp
  | ok links =>
    cases links with
    | nil => simp
    | cons a rest =>
      cases data with
      | fail s => simp
      | ok payload => cases payload <;> simp

/-- Witness for claim C10: an empty cache fetched a moment ago (age 1 ms)
still triggers a network refresh. -/
theorem getDataset_empty_cache_refetches_witness :
    1 ≤ (getDataset 1 ⟨0, "", []⟩ emptyOkEnv).networkCalls :=
  getDataset_empty_cache_refetches 1 ⟨0, "", []⟩ emptyOkEnv (by decide)

/-- Claim C6: the proximity-path country preference. When at least one
accumulated candidate has country "US", the final pool is exactly the
US-country candidates; when none has, the pool is all candidates
unfiltered. -/
theorem usPool_primary_country_preference :
    (∀ cands : List Toilet, (∃ t ∈ cands, t.country = some "US") →
        usPool cands = cands.filter fun t => t.country == some "US") ∧
    (∀ cands : List Toilet, (∀ t ∈ cands, t.country ≠ some "US") →
        usPool cands = cands) := by
  constructor
  · rintro cands ⟨t, ht, hc⟩
    unfold usPool
    rw [if_pos (List.any_eq_true.mpr ⟨t, ht, by simp [hc]⟩)]
  · intro cands h
    unfold usPool
    rw [if_neg]
    intro hc
    obtain ⟨t, ht, hp⟩ := List.any_eq_true.mp hc
    exact h t ht (by simpa using hp)

/-- Witness for claim C6 at a concrete two-candidate and one-candidate
pool. -/
theorem usPool_primary_country_preference_witness :
    usPool [torontoToilet, bostonToilet] = [bostonToilet] ∧
      usPool [torontoToilet] = [torontoToilet] := by
  constructor
  · rw [usPool_primary_country_preference.1 [torontoToilet, bostonToilet]
      ⟨bostonToilet, by decide, by decide⟩]
    decide
  · exact usPool_primary_country_preference.2 [torontoToilet] (by decide)

/-- Claim C7: a raw row whose coordinates are missing, too short, or not
finite numbers is normalized to `null` by both provider variants, so it
never enters the candidate pool. -/
theorem normalization_drops_nonfinite_coords :
    (∀ row : UkRow, ukCoordsInvalid row = true → ukRecordOfRow row = none) ∧
    (∀ row : UsRow,
        (isFiniteNumber row.latitude && isFiniteNumber row.longitude) = false →
        normalizeUsToilet row = none) := by
  constructor
  · intro row hinv
    unfold ukCoordsInvalid at hinv
    unfold ukRecordOfRow
    cases hco : row.coordinates with
    | none => rfl
    | some coords =>
      rw [hco] at hinv
      cases coords with
      | nil => simp
      | cons a rest =>
        cases rest with
        | nil => simp
        | cons b rest2 =>
          simp only [List.length_cons] at hinv ⊢
          rw [if_neg (by omega)]
          cases a <;> cases b <;> simp_all [isFiniteNumber]
  · intro row hfin
    unfold normalizeUsToilet
    cases hla : row.latitude <;> cases hlo : row.longitude <;>
      simp_all [isFiniteNumber]

/-- Witness for claim C7: a bulk row with a `NaN` latitude and a proximity
row with a `NaN` latitude are both dropped. -/
theorem normalization_drops_nonfinite_coords_witness :
    ukRecordOfRow ukRowNanCoord = none ∧ normalizeUsToilet usRowNanCoord = none :=
  ⟨normalization_drops_nonfinite_coords.1 ukRowNanCoord (by decide),
   normalization_drops_nonfinite_coords.2 usRowNanCoord (by decide)⟩

/-- Claim C8: a request with a non-finite coordinate is rejected with the
stable code "invalid_coordinates", and a finite coordinate outside both
bounding boxes with "outside_supported_regions"; in both cases no network
call is made and the cache is untouched. -/
theorem handleNearest_input_errors :
    (∀ dist latJ lonJ limitJ now cache env usEnv,
        (isFiniteNumber latJ = false ∨ isFiniteNumber lonJ = false) →
        handleNearest dist latJ lonJ limitJ now cache env usEnv =
          ⟨.clientError 400 "invalid_coordinates", cache, 0⟩) ∧
    (∀ dist latQ lonQ limitJ now cache env usEnv,
        isInUkBounds latQ lonQ = false → isInUsBounds latQ lonQ = false →
        handleNearest dist (.fin latQ) (.fin lonQ) limitJ now cache env usEnv =
          ⟨.clientError 400 "outside_supported_regions", cache, 0⟩) := by
  constructor
  · intro dist latJ lonJ limitJ now cache env usEnv h
    cases latJ <;> cases lonJ <;>
      first
        | rfl
        | (exfalso; rcases h with h | h <;> simp [isFiniteNumber] at h)
  · intro dist latQ lonQ limitJ now cache env usEnv h1 h2
    simp [handleNearest, h1, h2]

/-- Witness for claim C8: a `NaN` latitude and the point (0, 0). -/
theorem handleNearest_input_errors_witness :
    handleNearest sqDist .nan (.fin 0) (.fin 5) 0 sampleCache emptyOkEnv
        failingUsEnv =
      ⟨.clientError 400 "invalid_coordinates", sampleCache, 0⟩ ∧
    handleNearest sqDist (.fin 0) (.fin 0) (.fin 5) 0 sampleCache emptyOkEnv
        failingUsEnv =
      ⟨.clientError 400 "outside_supported_regions", sampleCache, 0⟩ :=
  ⟨handleNearest_input_errors.1 sqDist .nan (.fin 0) (.fin 5) 0 sampleCache
      emptyOkEnv failingUsEnv (Or.inl rfl),
   handleNearest_input_errors.2 sqDist 0 0 (.fin 5) 0 sampleCache
      emptyOkEnv failingUsEnv (by simp [isInUkBounds, UK_BOUNDS]; norm_num)
      (by simp [isInUsBounds, US_BOUNDS]; norm_num)⟩

/-- Claim C4 counterexample: a proximity row whose source `accessible`
boolean is absent (null) normalizes to `accessible = false`, not unknown —
the derived flag is `some false`, distinct from the unknown value `none` the
claim requires. -/
theorem normalizeUsToilet_null_boolean_not_unknown :
    (normalizeUsToilet usRowNullAmenities).map (fun t => t.accessible) =
        some (some false) ∧
      (normalizeUsToilet usRowNullAmenities).map (fun t => t.accessible) ≠
        some (none : Option Bool) := by
  constructor
  · rfl
  · intro h
    simp [show (normalizeUsToilet usRowNullAmenities).map (fun t => t.accessible) =
      some (some false) from rfl] at h

/-- Claim C4 (amended): every amenity flag of a normalized record is one of
{true, false, unknown}. For the proximity provider, `noPayment` and `radar`
are always unknown, while the derived flags `accessible`, `babyChange` and
`allGender` are strictly boolean: a source boolean that is absent or null
yields false (never unknown). The bulk provider passes its source tri-state
amenity values through unchanged. -/
theorem amenity_flags_tristate_amended :
    (∀ row t, normalizeUsToilet row = some t →
        t.noPayment = none ∧ t.radar = none ∧
        (row.accessible = none → t.accessible = some false) ∧
        (row.changing_table = none → t.babyChange = some false) ∧
        (row.unisex = none → t.allGender = some false) ∧
        (∃ b, t.accessible = some b) ∧ (∃ b, t.babyChange = some b) ∧
        (∃ b, t.allGender = some b)) ∧
    (∀ row t, ukRecordOfRow row = some t →
        t.accessible = row.accessible ∧ t.babyChange = row.baby_change ∧
        t.noPayment = row.no_payment ∧ t.radar = row.radar ∧
        t.allGender = row.all_gender) := by
  constructor
  · intro row t h
    unfold normalizeUsToilet at h
    split at h
    · injection h with h2
      subst h2
      refine ⟨rfl, rfl, ?_, ?_, ?_, ⟨_, rfl⟩, ⟨_, rfl⟩, ⟨_, rfl⟩⟩
      all_goals intro ha; rw [ha]; rfl
    · exact absurd h (by simp)
  · intro row t h
    unfold ukRecordOfRow at h
    split at h
    · exact absurd h (by simp)
    · split at h
      · exact absurd h (by simp)
      · split at h
        · injection h with h2
          subst h2
          exact ⟨rfl, rfl, rfl, rfl, rfl⟩
        · exact absurd h (by simp)

/-- Witness for the amended claim C4 at the concrete all-null-amenities
proximity row and the long-note bulk row. -/
theorem amenity_flags_tristate_amended_witness :
    (usToiletNullAmenities.noPayment = none ∧
      usToiletNullAmenities.accessible = some false) ∧
      usToiletNullAmenities.radar = none := by
  have h := amenity_flags_tristate_amended.1 usRowNullAmenities
    usToiletNullAmenities rfl
  exact ⟨⟨h.1, h.2.2.1 rfl⟩, h.2.1⟩

/-- Degrees-to-radians distributes a subtraction into a negation. -/
theorem toRad_neg_sub (a b : ℝ) : toRad (a - b) = -(toRad (b - a)) := by
  unfold toRad
  ring

/-- The haversine intermediate vanishes on coincident points. -/
theorem havA_self (lat lon : ℝ) : havA lat lon lat lon = 0 := by
  simp [havA, toRad]

/-- The haversine intermediate is symmetric in its two points. -/
theorem havA_symm (lat1 lon1 lat2 lon2 : ℝ) :
    havA lat1 lon1 lat2 lon2 = havA lat2 lon2 lat1 lon1 := by
  unfold havA
  rw [toRad_neg_sub lat1 lat2, toRad_neg_sub lon1 lon2]
  simp only [neg_div, Real.sin_neg]
  ring

/-- `Math.atan2(0, 1)` is zero. -/
theorem atan2_zero_one : atan2 0 1 = 0 := by
  unfold atan2
  rw [show (⟨1, 0⟩ : ℂ) = 1 from Complex.ext (by simp) (by simp), Complex.arg_one]

/-- `Math.atan2(y, x)` is non-negative for non-negative `y`. -/
theorem atan2_nonneg (y x : ℝ) (hy : 0 ≤ y) : 0 ≤ atan2 y x := by
  unfold atan2
  exact Complex.arg_nonneg_iff.mpr (by simpa)

/-- Claim C9: over real-number semantics, the haversine distance is zero on
coincident points, symmetric in its endpoints, and non-negative everywhere
(in particular it is a total real-valued function, never an undefined
value). -/
theorem haversineKm_zero_symm_nonneg :
    (∀ lat lon : ℝ, haversineKm lat lon lat lon = 0) ∧
    (∀ lat1 lon1 lat2 lon2 : ℝ,
        haversineKm lat1 lon1 lat2 lon2 = haversineKm lat2 lon2 lat1 lon1) ∧
    (∀ lat1 lon1 lat2 lon2 : ℝ, 0 ≤ haversineKm lat1 lon1 lat2 lon2) := by
  refine ⟨?_, ?_, ?_⟩
  · intro lat lon
    unfold haversineKm
    rw [havA_self, Real.sqrt_zero, sub_zero, Real.sqrt_one, atan2_zero_one]
    ring
  · intro lat1 lon1 lat2 lon2
    unfold haversineKm
    rw [havA_symm lat1 lon1 lat2 lon2]
  · intro lat1 lon1 lat2 lon2
    unfold haversineKm
    have h := atan2_nonneg (Real.sqrt (havA lat1 lon1 lat2 lon2))
      (Real.sqrt (1 - havA lat1 lon1 lat2 lon2)) (Real.sqrt_nonneg _)
    linarith

/-- The output of the whitespace-collapsing pass has no two adjacent
whitespace characters, and in skip mode it starts with a non-whitespace
character. -/
theorem collapseWsAux_spec (l : List Char) :
    (∀ b : Bool, (collapseWsAux b l).Chain' noTwoSpaces) ∧
      (∀ c, (collapseWsAux true l).head? = some c → isJsSpace c = false) := by
  induction l with
  | nil => exact ⟨fun b => List.chain'_nil, by simp [collapseWsAux]⟩
  | cons a as ih =>
    obtain ⟨ihChain, ihHead⟩ := ih
    constructor
    · intro b
      cases ha : isJsSpace a with
      | true =>
        cases b with
        | true => simpa [collapseWsAux, ha] using ihChain true
        | false =>
          rw [show collapseWsAux false (a :: as) = ' ' :: collapseWsAux true as
            from by simp [collapseWsAux, ha]]
          rw [List.chain'_cons']
          refine ⟨?_, ihChain true⟩
          intro y hy
          have hns := ihHead y hy
          simp [noTwoSpaces, hns]
      | false =>
        rw [show collapseWsAux b (a :: as) = a :: collapseWsAux false as
          from by simp [collapseWsAux, ha]]
        rw [List.chain'_cons']
        refine ⟨?_, ihChain false⟩
        intro y hy
        simp [noTwoSpaces, ha]
    · intro c hc
      cases ha : isJsSpace a with
      | true =>
        rw [show collapseWsAux true (a :: as) = collapseWsAux true as
          from by simp [collapseWsAux, ha]] at hc
        exact ihHead c hc
      | false =>
        rw [show collapseWsAux true (a :: as) = a :: collapseWsAux false as
          from by simp [collapseWsAux, ha]] at hc
        simp only [List.head?_cons, Option.some_inj] at hc
        rw [← hc]
        exact ha

/-- Every whitespace character the collapsing pass emits is a plain space. -/
theorem collapseWsAux_mem_space (l : List Char) :
    ∀ b c, c ∈ collapseWsAux b l → isJsSpace c = true → c = ' ' := by
  induction l with
  | nil => simp [collapseWsAux]
  | cons a as ih =>
    intro b c hc hs
    cases ha : isJsSpace a with
    | true =>
      cases b with
      | true =>
        rw [show collapseWsAux true (a :: as) = collapseWsAux true as
          from by simp [collapseWsAux, ha]] at hc
        exact ih true c hc hs
      | false =>
        rw [show collapseWsAux false (a :: as) = ' ' :: collapseWsAux true as
          from by simp [collapseWsAux, ha]] at hc
        rcases List.mem_cons.mp hc with h | h
        · exact h
        · exact ih true c h hs
    | false =>
      rw [show collapseWsAux b (a :: as) = a :: collapseWsAux false as
        from by simp [collapseWsAux, ha]] at hc
      rcases List.mem_cons.mp hc with h | h
      · subst h; rw [ha] at hs; cases hs
      · exact ih false c h hs

/-- The head of `dropWhile p` does not satisfy `p`. -/
theorem head_dropWhile_not_sat {α : Type} (p : α → Bool) (l : List α) :
    ∀ c, (l.dropWhile p).head? = some c → p c = false := by
  induction l with
  | nil => simp
  | cons a as ih =>
    intro c h
    cases hp : p a with
    | true =>
      rw [List.dropWhile_cons, if_pos hp] at h
      exact ih c h
    | false =>
      rw [List.dropWhile_cons, if_neg (by simp [hp])] at h
      simp only [List.head?_cons, Option.some_inj] at h
      rw [← h]
      exact hp

/-- Trimming only removes characters. -/
theorem mem_of_mem_trimChars {c : Char} {l : List Char}
    (h : c ∈ trimChars l) : c ∈ l := by
  unfold trimChars at h
  rw [List.mem_reverse] at h
  have h2 := (List.dropWhile_sublist isJsSpace).subset h
  rw [List.mem_reverse] at h2
  exact (List.dropWhile_sublist isJsSpace).subset h2

/-- The trimmed string does not start with whitespace. -/
theorem trimChars_head_not_space (l : List Char) :
    ∀ c, (trimChars l).head? = some c → isJsSpace c = false := by
  intro c h
  unfold trimChars at h
  rw [List.head?_reverse] at h
  have hy : ((l.dropWhile isJsSpace).reverse).getLast? = some c := by
    conv_lhs => rw [← List.takeWhile_append_dropWhile isJsSpace
      (l.dropWhile isJsSpace).reverse]
    rw [List.getLast?_append, h]
    rfl
  rw [List.getLast?_reverse] at hy
  exact head_dropWhile_not_sat isJsSpace l c hy

/-- The trimmed string does not end with whitespace. -/
theorem trimChars_getLast_not_space (l : List Char) :
    ∀ c, (trimChars l).getLast? = some c → isJsSpace c = false := by
  intro c h
  unfold trimChars at h
  rw [List.getLast?_reverse] at h
  exact head_dropWhile_not_sat isJsSpace _ c h

/-- Trimming preserves the no-two-adjacent-whitespace property. -/
theorem trimChars_chain (l : List Char) (hl : l.Chain' noTwoSpaces) :
    (trimChars l).Chain' noTwoSpaces := by
  unfold trimChars
  rw [List.chain'_reverse]
  have h1 : (l.dropWhile isJsSpace).Chain' noTwoSpaces :=
    @List.Chain'.right_of_append _ _ (l.takeWhile isJsSpace) _
      (by rw [List.takeWhile_append_dropWhile]; exact hl)
  have h2 : ((l.dropWhile isJsSpace).reverse).Chain' (flip noTwoSpaces) :=
    List.chain'_reverse.mpr h1
  exact @List.Chain'.right_of_append _ _
    ((l.dropWhile isJsSpace).reverse.takeWhile isJsSpace) _
    (by rw [List.takeWhile_append_dropWhile]; exact h2)

/-- Full behaviour of `clampChars`: either `null`, or a string of length at
most `maxLen`, with no adjacent whitespace pair, no leading or trailing
whitespace, every whitespace character a plain space, and ending in the
`"..."` marker whenever truncation occurred. Requires `3 ≤ maxLen` (every
call in the source uses 80, 120, 220, 280 or 3000). -/
theorem clampChars_spec (l : List Char) (maxLen : Nat) (h3 : 3 ≤ maxLen) :
    clampChars l maxLen = none ∨
      ∃ t, clampChars l maxLen = some t ∧
        t.length ≤ maxLen ∧
        t.Chain' noTwoSpaces ∧
        (∀ c, t.head? = some c → isJsSpace c = false) ∧
        (∀ c, t.getLast? = some c → isJsSpace c = false) ∧
        (∀ c ∈ t, isJsSpace c = true → c = ' ') ∧
        (maxLen < (trimChars (collapseWs l)).length →
          ∃ u, t = u ++ ['.', '.', '.']) := by
  have hchain : (trimChars (collapseWs l)).Chain' noTwoSpaces :=
    trimChars_chain _ ((collapseWsAux_spec l).1 false)
  have hhead := trimChars_head_not_space (collapseWs l)
  have hlast := trimChars_getLast_not_space (collapseWs l)
  have hmem : ∀ c ∈ trimChars (collapseWs l), isJsSpace c = true → c = ' ' :=
    fun c hc hs => collapseWsAux_mem_space l false c (mem_of_mem_trimChars hc) hs
  by_cases he : (trimChars (collapseWs l)).isEmpty
  · left
    simp [clampChars, he]
  · by_cases htr : maxLen < (trimChars (collapseWs l)).length
    · right
      have hslice : jsSliceTo (trimChars (collapseWs l)) ((maxLen : Int) - 3) =
          (trimChars (collapseWs l)).take (maxLen - 3) := by
        unfold jsSliceTo
        rw [if_neg (by omega)]
        congr 1
        omega
      refine ⟨(trimChars (collapseWs l)).take (maxLen - 3) ++ ['.', '.', '.'],
        ?_, ?_, ?_, ?_, ?_, ?_, ?_⟩
      · simp [clampChars, he, htr, hslice]
      · simp only [List.length_append, List.length_take, List.length_cons,
          List.length_nil]
        omega
      · rw [List.chain'_append]
        refine ⟨?_, ?_, ?_⟩
        · exact (List.chain'_append.mp
            (by rw [List.take_append_drop]; exact hchain)).1
        · simp [List.chain'_cons', noTwoSpaces, isJsSpace]
        · intro x hx y hy
          simp only [List.head?_cons, Option.mem_def, Option.some_inj] at hy
          subst hy
          simp [noTwoSpaces, isJsSpace]
      · intro c hc
        rw [List.head?_append] at hc
        cases hh : ((trimChars (collapseWs l)).take (maxLen - 3)).head? with
        | some d =>
          rw [hh] at hc
          have hcd : d = c := by simpa [Option.or] using hc
          rw [List.head?_take] at hh
          by_cases hz : maxLen - 3 = 0
          · rw [if_pos hz] at hh; cases hh
          · rw [if_neg hz] at hh
            exact hcd ▸ hhead d hh
        | none =>
          rw [hh] at hc
          have : c = '.' := by simpa [Option.or] using hc.symm
          rw [this]
          rfl
      · intro c hc
        rw [List.getLast?_append] at hc
        have : c = '.' := by simpa [Option.or] using hc.symm
        rw [this]
        rfl
      · intro c hc hs
        rcases List.mem_append.mp hc with h | h
        · exact hmem c (List.take_subset _ _ h) hs
        · have : c = '.' := by simpa using h
          rw [this] at hs
          cases hs
      · intro _
        exact ⟨_, rfl⟩
    · right
      refine ⟨trimChars (collapseWs l), ?_, le_of_not_lt htr, hchain, hhead,
        hlast, hmem, fun h => absurd h htr⟩
      simp [clampChars, he, htr]

/-- A string produced by `clampText` with `3 ≤ maxLen` has length at most
`maxLen`. -/
theorem clampText_length_le (v : Option String) (maxLen : Nat)
    (h3 : 3 ≤ maxLen) (s : String) (h : clampText v maxLen = some s) :
    s.length ≤ maxLen := by
  cases v with
  | none => simp [clampText] at h
  | some s0 =>
    simp only [clampText] at h
    by_cases he : s0.isEmpty
    · rw [if_pos he] at h; cases h
    · rw [if_neg he] at h
      rcases clampChars_spec s0.toList maxLen h3 with hnone | ⟨t, ht, hlen, _⟩
      · rw [hnone] at h; cases h
      · rw [ht] at h
        have hts : t.asString = s := by simpa using h
        rw [← hts]
        exact hlen

set_option maxRecDepth 40000 in
/-- Claim C5 counterexample: the text clamping rule is not applied by the
bulk-dataset variant — a 300-character `notes` input passes through at
length 300 (over the 280 cap, with no ellipsis) — and even in the proximity
variant the resulting `notes` field can be 563 characters long (two
independently-clamped 280-character parts joined with a delimiter). -/
theorem bulk_variant_unclamped_cex :
    (ukRecordOfRow ukRowLongNote).map (fun t => t.notes.map String.length) =
        some (some 300) ∧
      280 < 300 ∧
      (normalizeUsToilet usRowLongParts).map (fun t => t.notes.map String.length) =
        some (some 563) :=
  ⟨by decide, by norm_num, by decide⟩

/-- Claim C5 (amended): the clamping rule — collapse internal whitespace runs
to single spaces, trim, cap with an ellipsis marker within the limit — holds
for every string `clampText` produces, but it is applied only by the
proximity-API variant: that variant's `name` is clamped at 120 (with a short
default fallback), its `notes` is the join of the `directions` and `comment`
subfields each independently clamped at 280 (so `notes` itself is at most
563 characters), while the bulk-dataset variant passes `name` and `notes`
through without clamping. -/
theorem clampText_rule_amended :
    (∀ (s : String) (maxLen : Nat), 3 ≤ maxLen →
        clampText (some s) maxLen = none ∨
        ∃ t : String, clampText (some s) maxLen = some t ∧
          t.length ≤ maxLen ∧
          t.toList.Chain' noTwoSpaces ∧
          (∀ c, t.toList.head? = some c → isJsSpace c = false) ∧
          (∀ c, t.toList.getLast? = some c → isJsSpace c = false) ∧
          (maxLen < (trimChars (collapseWs s.toList)).length →
            ∃ u, t.toList = u ++ ['.', '.', '.'])) ∧
    (∀ row t, normalizeUsToilet row = some t →
        t.name.length ≤ 120 ∧ ∀ n, t.notes = some n → n.length ≤ 563) ∧
    (∀ row t, ukRecordOfRow row = some t →
        t.notes = row.notes ∧
        ∀ s, row.name = some s → s ≠ "" → t.name = s) := by
  refine ⟨?_, ?_, ?_⟩
  · intro s maxLen h3
    by_cases he : s.isEmpty
    · left
      simp [clampText, he]
    · have hct : clampText (some s) maxLen =
          (clampChars s.toList maxLen).map List.asString := by
        simp [clampText, he]
      rcases clampChars_spec s.toList maxLen h3 with hnone |
        ⟨t, ht, hlen, hchain, hhead, hlast, _, hell⟩
      · left
        rw [hct, hnone]
        rfl
      · right
        refine ⟨t.asString, by rw [hct, ht]; rfl, hlen, ?_, ?_, ?_, ?_⟩
        · rw [List.toList_asString]; exact hchain
        · rw [List.toList_asString]; exact hhead
        · rw [List.toList_asString]; exact hlast
        · intro h
          rw [List.toList_asString]
          exact hell h
  · intro row t h
    unfold normalizeUsToilet at h
    split at h
    · injection h with h2
      subst h2
      constructor
      · cases hn : clampText row.name 120 with
        | none => simp [strOr, jsOrStr]; decide
        | some s1 =>
          by_cases hs1 : s1 = ""
          · simp [strOr, jsOrStr, hs1]; decide
          · rw [show strOr (some s1) "Public restroom" = s1 from by
              simp [strOr, jsOrStr, hs1]]
            exact clampText_length_le row.name 120 (by norm_num) s1 hn
      · intro n hn
        unfold usNotesOf at hn
        split at hn
        · cases hn
        · rename_i d hd hc
          injection hn with hn2
          have hb := clampText_length_le row.directions 280 (by norm_num) d hd
          rw [← hn2]
          omega
        · rename_i c hd hc
          injection hn with hn2
          have hb := clampText_length_le row.comment 280 (by norm_num) c hc
          rw [← hn2]
          omega
        · rename_i d c hd hc
          injection hn with hn2
          have hb1 := clampText_length_le row.directions 280 (by norm_num) d hd
          have hb2 := clampText_length_le row.comment 280 (by norm_num) c hc
          rw [← hn2, String.length_append, String.length_append]
          have h3 : (" | ").length = 3 := rfl
          omega
    · exact absurd h (by simp)
  · intro row t h
    unfold ukRecordOfRow at h
    split at h
    · exact absurd h (by simp)
    · split at h
      · exact absurd h (by simp)
      · split at h
        · injection h with h2
          subst h2
          refine ⟨rfl, ?_⟩
          intro s hs hne
          simp [strOr, jsOrStr, hs, hne]
        · exact absurd h (by simp)

/-- Witness for the amended claim C5: a concrete clamped string, the
all-default proximity record's name bound, and the bulk long-note record's
unchanged notes. -/
theorem clampText_rule_amended_witness :
    (∃ t, clampText (some "a  b") 280 = some t ∧ t.length ≤ 280) ∧
      usToiletNullAmenities.name.length ≤ 120 ∧
      ukToiletLongNote.notes = ukRowLongNote.notes := by
  refine ⟨?_,
    (clampText_rule_amended.2.1 usRowNullAmenities usToiletNullAmenities rfl).1,
    (clampText_rule_amended.2.2 ukRowLongNote ukToiletLongNote rfl).1⟩
  rcases clampText_rule_amended.1 "a  b" 280 (by norm_num) with h | ⟨t, ht, hlen, _⟩
  · rw [show clampText (some "a  b") 280 = some "a b" from rfl] at h
    cases h
  · exact ⟨t, ht, hlen⟩

end HowFarFromPotty
